import Mathlib

/-!
Verification development for the biochatter conversation engine and
vector-store alias encoding.

The repository ships `src/biochatter/vectorstore_host.py` (embedded below from
the source) and the test suite `src/test/test_llm_connect.py`.  The module
`biochatter/llm_connect.py` that the tests exercise is not part of the source
tree, so the conversation-engine operations (message log serialization,
history flattening, usage accounting, provider binding, response parsing,
correction workflow, model-catalog queries) are modelled from the
specification, with the shapes pinned down by the test suite where the
specification leaves freedom.
-/

namespace Biochatter

/-! ## Message log

Modelled from the spec: `Message` is a tagged variant over
{System, Human, AI} with a `content` text.  The Python message list can hold
arbitrary values (the tests append `None`), so the embedding adds a fourth
`unrecognized` variant standing for any value that is none of the three
recognized message classes. -/

inductive LogEntry where
  | system (content : String)
  | human (content : String)
  | ai (content : String)
  | unrecognized
deriving DecidableEq, Repr

/-- Content text of an entry; the `unrecognized` variant carries no content
and is given the empty string as junk value (it is never serialized). -/
def LogEntry.content : LogEntry → String
  | .system c => c
  | .human c => c
  | .ai c => c
  | .unrecognized => ""

/-- Modelled from the spec: the single-key mapping a recognized message
serializes to (`\x7b"system": content\x7d`, `\x7b"user": content\x7d`,
`\x7b"ai": content\x7d`), represented as a (role, content) pair; an
unrecognized value yields the unrecognized-message-type error. -/
def serializeEntry : LogEntry → Except String (String × String)
  | .system c => .ok ("system", c)
  | .human c => .ok ("user", c)
  | .ai c => .ok ("ai", c)
  | .unrecognized => .error "Unrecognized message type"

/-- Modelled from the spec: `serialize()` / `get_msg_json()` walks the log in
order, mapping each recognized message to its single-key mapping and failing
on the first value that is not one of the three recognized variants. -/
def serialize : List LogEntry → Except String (List (String × String))
  | [] => .ok []
  | m :: ms =>
    match serializeEntry m with
    | .error e => .error e
    | .ok t =>
      match serialize ms with
      | .error e => .error e
      | .ok ts => .ok (t :: ts)

/-- Role/content pair of a recognized entry (junk for `unrecognized`, which is
ruled out wherever this is used). -/
def roleTurn : LogEntry → String × String
  | .system c => ("system", c)
  | .human c => ("user", c)
  | .ai c => ("ai", c)
  | .unrecognized => ("", "")

/-! ## History flattener

Modelled from the spec: `_create_history` (XinferenceConversation) turns the
message log into an alternating role/content turn array.  The spec gives the
folding contract (System runs followed by a Human merge, joined by line
breaks) together with the observed compression: a log of three Human/AI
exchanges followed by a trailing System+Human pair flattens to exactly three
turns.  The grouping reproducing both (and all four flattener tests) is:
every message before the last AI message is joined into one leading `"user"`
turn, the last AI message becomes an `"assistant"` turn, and every message
after it is joined into the final `"user"` turn; a log with no AI message
joins entirely into a single `"user"` turn.  Joins use a line break. -/

/-- Python `"\n".join`. -/
def joinNL : List String → String
  | [] => ""
  | [x] => x
  | x :: y :: xs => x ++ "\n" ++ joinNL (y :: xs)

/-- Index of the last AI message in the log, if any. -/
def lastAIIndex : List LogEntry → Option Nat
  | [] => none
  | m :: ms =>
    match lastAIIndex ms with
    | some i => some (i + 1)
    | none =>
      match m with
      | .ai _ => some 0
      | _ => none

/-- Modelled from the spec: the history flattener (see section comment). -/
def createHistory (msgs : List LogEntry) : List (String × String) :=
  match lastAIIndex msgs with
  | some i =>
    [("user", joinNL ((msgs.take i).map LogEntry.content)),
     ("assistant", (msgs.getD i .unrecognized).content),
     ("user", joinNL ((msgs.drop (i + 1)).map LogEntry.content))]
  | none => [("user", joinNL (msgs.map LogEntry.content))]

/-- The part of the log strictly after the last AI message (the whole log when
no AI message is present). -/
def tailAfterLastAI (msgs : List LogEntry) : List LogEntry :=
  match lastAIIndex msgs with
  | some i => msgs.drop (i + 1)
  | none => msgs

/-! ## Usage accounting

Modelled from the spec: `_update_usage_stats(model, token_usage)` partitions
the `token_usage` mapping into top-level numeric entries and everything else
(strings, nested mappings).  When the conversation's `user` is the
distinguished "community" sentinel it increments a shared counter keyed by a
date+user bucket with one sub-key per `field:model` pair for each numeric
entry; independently of the `user` value it forwards the complete, unfiltered
mapping to the injected update-token-usage callback `(user, model,
token_usage)`. -/

/-- A top-level value of the `token_usage` mapping: a plain number, a string,
or a nested mapping (whose own entries are never aggregated). -/
inductive UsageValue where
  | num (n : Int)
  | str (s : String)
  | nested (entries : List (String × Int))
deriving DecidableEq, Repr

/-- The sanitized aggregate increment: one `field:model` sub-key per
top-level numeric entry, in mapping order; non-numeric and nested values are
skipped. -/
def sanitizeUsage (model : String) : List (String × UsageValue) → List (String × Int)
  | [] => []
  | (k, .num n) :: rest => (k ++ ":" ++ model, n) :: sanitizeUsage model rest
  | (_, .str _) :: rest => sanitizeUsage model rest
  | (_, .nested _) :: rest => sanitizeUsage model rest

/-- The two observable effects of one `_update_usage_stats` call. -/
structure UsageEffects where
  communityIncrement : Option (String × List (String × Int))
  callbackArgs : String × String × List (String × UsageValue)
deriving DecidableEq, Repr

/-- Modelled from the spec: `_update_usage_stats` (see section comment); the
date of the bucket key is passed in explicitly. -/
def updateUsageStats (user model date : String)
    (token_usage : List (String × UsageValue)) : UsageEffects :=
  { communityIncrement :=
      if user = "community" then
        some ("usage:" ++ date ++ ":" ++ user, sanitizeUsage model token_usage)
      else none,
    callbackArgs := (user, model, token_usage) }

/-! ## Provider binding

Modelled from the spec: the Conversation holds two client handles `chat` and
`ca_chat`, each either absent or bound to a live client built from the
api-key/user pair; accessing either before a successful `set_api_key` fails
with an explicit not-initialized error directing the caller to
`set_api_key()`.  `set_api_key` builds the client (the build outcome — the
external litellm/provider call — is passed in explicitly); on success it
binds both handles to the same client and returns true, on failure it leaves
both handles uninitialized and returns false. -/

/-- A bound provider client: the model it serves and the api key it was
authenticated with. -/
structure ClientHandle where
  model_name : String
  api_key : String
deriving DecidableEq, Repr

/-- Conversation state relevant to the provider-binding lifecycle. -/
structure Conversation where
  model_name : String
  chatHandle : Option ClientHandle
  caChatHandle : Option ClientHandle
  api_key : Option String
  user : Option String
deriving DecidableEq, Repr

/-- A freshly constructed conversation: no handle bound, no key, no user. -/
def mkConversation (model_name : String) : Conversation :=
  { model_name := model_name, chatHandle := none, caChatHandle := none,
    api_key := none, user := none }

/-- Accessing the primary `chat` handle. -/
def chatAccess (c : Conversation) : Except String ClientHandle :=
  match c.chatHandle with
  | some h => .ok h
  | none => .error "Chat attribute not initialized. Did you call set_api_key()?"

/-- Accessing the correcting-agent `ca_chat` handle. -/
def caChatAccess (c : Conversation) : Except String ClientHandle :=
  match c.caChatHandle with
  | some h => .ok h
  | none =>
    .error "Correcting agent chat attribute not initialized. Did you call set_api_key()?"

/-- Modelled from the spec: `set_api_key(api_key, user)`; `buildResult` is the
outcome of constructing/validating the provider client with that key. -/
def set_api_key (c : Conversation) (buildResult : Except String ClientHandle)
    (api_key user : String) : Bool × Conversation :=
  match buildResult with
  | .ok h =>
    (true, { c with chatHandle := some h, caChatHandle := some h,
                    api_key := some api_key, user := some user })
  | .error _ =>
    (false, { c with chatHandle := none, caChatHandle := none })

/-! ## Response parsing

Modelled from the spec: `parse_llm_response` defensively extracts
`generations[0][0]["message"]["response_metadata"]["token_usage"]` from an
opaque provider response and returns an absent result instead of raising for
any missing key, wrong shape, non-mapping input or `None`.  Python values are
embedded as the `PyVal` type; the extraction chain returns `none` at its
first failing link, so the embedding is total (it can never raise). -/

/-- Embedding of the Python values a provider response is built from. -/
inductive PyVal where
  | pyNone
  | int (n : Int)
  | str (s : String)
  | list (xs : List PyVal)
  | dict (entries : List (String × PyVal))
deriving Repr

/-- Lookup of a key in an embedded Python dict (first match wins). -/
def dictGet : List (String × PyVal) → String → Option PyVal
  | [], _ => none
  | (k, v) :: rest, key => if k = key then some v else dictGet rest key

/-- Modelled from the spec: `parse_llm_response` (see section comment). -/
def parse_llm_response (response : PyVal) : Option PyVal :=
  match response with
  | .dict entries =>
    match dictGet entries "generations" with
    | some (.list (first :: _)) =>
      match first with
      | .list (gen :: _) =>
        match gen with
        | .dict genEntries =>
          match dictGet genEntries "message" with
          | some (.dict msgEntries) =>
            match dictGet msgEntries "response_metadata" with
            | some (.dict metaEntries) => dictGet metaEntries "token_usage"
            | _ => none
          | _ => none
        | _ => none
      | _ => none
    | _ => none
  | _ => none

/-- The well-shaped provider response of the tests' `valid_response` helper,
carrying `token_usage` at
`generations[0][0]["message"]["response_metadata"]["token_usage"]`. -/
def validResponse (token_usage : PyVal) : PyVal :=
  .dict [("generations",
    .list [.list [.dict [("message",
        .dict [("response_metadata", .dict [("token_usage", token_usage)])]),
      ("text", .str "dummy text")]]])]

/-! ## Correction workflow

Modelled from the spec: `_correct_response(msg)` builds a three-turn envelope
— the correcting-agent system prompt, a Human turn carrying the primary
answer verbatim, and a closing system instruction — sends it to `ca_chat`,
records a usage event under the correction persona's model identity with the
parsed token usage, and returns the raw correction text unmodified.  The
correction response text and its parsed usage (outcomes of the external
`ca_chat.generate` call) are passed in explicitly. -/

/-- The observable outcome of one `_correct_response` call. -/
structure CorrectionRun where
  envelope : List LogEntry
  usageModel : String
  usage : List (String × UsageValue)
  correction : String
deriving Repr

/-- Modelled from the spec: `_correct_response` (see section comment). -/
def correct_response (caSystemPrompt closingInstruction msg caModelName : String)
    (responseText : String) (parsedUsage : List (String × UsageValue)) :
    CorrectionRun :=
  { envelope := [LogEntry.system caSystemPrompt, LogEntry.human msg,
                 LogEntry.system closingInstruction],
    usageModel := caModelName,
    usage := parsedUsage,
    correction := responseText }

/-! ## Model catalog

Modelled from the spec: the static catalog maps model identifiers to entries
whose `max_tokens` field may be absent.  `get_model_info` fails with the
not-found error for an unknown model; `get_model_max_tokens` returns the
entry's `max_tokens` and fails with the same not-found error class when
either the model is unknown or the field is absent — indistinguishable to
the caller.  The catalog (the external `litellm.model_cost` mapping) is
passed in explicitly. -/

/-- A catalog entry; only the `max_tokens` field takes part in the claims
about catalog queries, and its absence is representable. -/
structure ModelInfo where
  max_tokens : Option Nat
deriving DecidableEq, Repr

/-- The single not-found error class both catalog failures raise. -/
inductive CatalogError where
  | notFound
deriving DecidableEq, Repr

/-- First entry with the given model identifier, if any. -/
def catalogLookup : List (String × ModelInfo) → String → Option ModelInfo
  | [], _ => none
  | (k, v) :: rest, name => if k = name then some v else catalogLookup rest name

/-- Modelled from the spec: `get_model_info(name)`. -/
def get_model_info (catalog : List (String × ModelInfo)) (name : String) :
    Except CatalogError ModelInfo :=
  match catalogLookup catalog name with
  | some info => .ok info
  | none => .error .notFound

/-- Modelled from the spec: `get_model_max_tokens(name)`. -/
def get_model_max_tokens (catalog : List (String × ModelInfo)) (name : String) :
    Except CatalogError Nat :=
  match get_model_info catalog name with
  | .error e => .error e
  | .ok info =>
    match info.max_tokens with
    | some t => .ok t
    | none => .error .notFound

/-- The catalog the catalog-query tests patch in (`MOCK_MODEL_COST`), with
only the `max_tokens` field retained. -/
def mockCatalog : List (String × ModelInfo) :=
  [("gpt-4", ⟨some 8192⟩), ("gpt-3.5-turbo", ⟨some 4096⟩),
   ("claude-2", ⟨some 100000⟩)]

/-- A catalog whose only entry is a known model lacking `max_tokens`, as in
`test_get_model_max_tokens_missing_info`. -/
def mockCatalogNoMax : List (String × ModelInfo) :=
  [("gpt-4", ⟨none⟩)]

/-! ## Vector-store alias doc-name encoding
(src/biochatter/vectorstore_host.py)

`string_to_base64(txt)` urlsafe-base64-encodes the UTF-8 bytes of `txt` and
then substitutes `a_a` for every `-` and `b_b` for every `=` (Python
`str.replace`, leftmost non-overlapping); `base64_to_string(b64_txt)`
substitutes back (`a_a` to `-`, then `b_b` to `=`), urlsafe-base64-decodes
and UTF-8-decodes.  Byte values are embedded as `Nat` below 256; bit-field
packing is written with `/`, `%`, `*`, `+` over the exact byte layouts.
Decoding failures (which raise in Python) are the `none` result. -/

/-- UTF-8 encoding of one character as its byte values. -/
def utf8Bytes (c : Char) : List Nat :=
  if c.toNat < 0x80 then [c.toNat]
  else if c.toNat < 0x800 then [0xC0 + c.toNat / 64, 0x80 + c.toNat % 64]
  else if c.toNat < 0x10000 then
    [0xE0 + c.toNat / 4096, 0x80 + c.toNat / 64 % 64, 0x80 + c.toNat % 64]
  else
    [0xF0 + c.toNat / 262144, 0x80 + c.toNat / 4096 % 64,
     0x80 + c.toNat / 64 % 64, 0x80 + c.toNat % 64]

/-- `txt.encode("utf-8")`. -/
def utf8Encode (s : String) : List Nat := s.data.flatMap utf8Bytes

/-- Fuel-indexed worker for `utf8DecodeL`: lead-byte ranges select the
sequence length, continuation bytes (read with `headD`, whose default 0 fails
the continuation test exactly when the input is truncated) must lie in
[0x80, 0xC0); a violation is a decode error (`none`).  One unit of fuel per
decoded character; fuel at least the byte count never runs out. -/
def utf8DecodeFuel : Nat → List Nat → Option (List Char)
  | _, [] => some []
  | 0, _ :: _ => none
  | f + 1, b :: bs =>
    if b < 0x80 then (utf8DecodeFuel f bs).map (Char.ofNat b :: ·)
    else if b < 0xC0 then none
    else if b < 0xE0 then
      if 0x80 ≤ bs.headD 0 ∧ bs.headD 0 < 0xC0 then
        (utf8DecodeFuel f bs.tail).map
          (Char.ofNat ((b - 0xC0) * 64 + (bs.headD 0 - 0x80)) :: ·)
      else none
    else if b < 0xF0 then
      if (0x80 ≤ bs.headD 0 ∧ bs.headD 0 < 0xC0)
          ∧ (0x80 ≤ bs.tail.headD 0 ∧ bs.tail.headD 0 < 0xC0) then
        (utf8DecodeFuel f bs.tail.tail).map
          (Char.ofNat ((b - 0xE0) * 4096 + (bs.headD 0 - 0x80) * 64
            + (bs.tail.headD 0 - 0x80)) :: ·)
      else none
    else if b < 0xF8 then
      if (0x80 ≤ bs.headD 0 ∧ bs.headD 0 < 0xC0)
          ∧ (0x80 ≤ bs.tail.headD 0 ∧ bs.tail.headD 0 < 0xC0)
          ∧ (0x80 ≤ bs.tail.tail.headD 0 ∧ bs.tail.tail.headD 0 < 0xC0) then
        (utf8DecodeFuel f bs.tail.tail.tail).map
          (Char.ofNat ((b - 0xF0) * 262144 + (bs.headD 0 - 0x80) * 4096
            + (bs.tail.headD 0 - 0x80) * 64 + (bs.tail.tail.headD 0 - 0x80)) :: ·)
      else none
    else none

/-- `bytes.decode("utf-8")`. -/
def utf8DecodeL (bytes : List Nat) : Option (List Char) :=
  utf8DecodeFuel bytes.length bytes

/-- The urlsafe base64 alphabet: sextet value to character. -/
def b64Chr (i : Nat) : Char :=
  if i < 26 then Char.ofNat (65 + i)
  else if i < 52 then Char.ofNat (97 + (i - 26))
  else if i < 62 then Char.ofNat (48 + (i - 52))
  else if i = 62 then '-'
  else '_'

/-- `base64.urlsafe_b64encode`: bytes to characters, three bytes per four
characters, with `=` padding for a trailing group of one or two bytes. -/
def b64EncodeChars : List Nat → List Char
  | [] => []
  | [b1] => [b64Chr (b1 / 4), b64Chr (b1 % 4 * 16), '=', '=']
  | [b1, b2] => [b64Chr (b1 / 4), b64Chr (b1 % 4 * 16 + b2 / 16), b64Chr (b2 % 16 * 4), '=']
  | b1 :: b2 :: b3 :: rest =>
    b64Chr (b1 / 4) :: b64Chr (b1 % 4 * 16 + b2 / 16) ::
      b64Chr (b2 % 16 * 4 + b3 / 64) :: b64Chr (b3 % 64) :: b64EncodeChars rest

/-- Character to sextet value for `urlsafe_b64decode` (which translates `-`
to `+` and `_` to `/` before standard decoding, so both spellings of 62 and
63 are accepted); `none` for characters outside the alphabet. -/
def b64Index (c : Char) : Option Nat :=
  if 'A' ≤ c ∧ c ≤ 'Z' then some (c.toNat - 65)
  else if 'a' ≤ c ∧ c ≤ 'z' then some (c.toNat - 97 + 26)
  else if '0' ≤ c ∧ c ≤ '9' then some (c.toNat - 48 + 52)
  else if c = '-' ∨ c = '+' then some 62
  else if c = '_' ∨ c = '/' then some 63
  else none

/-- The scanning phase of `b64decode`: collect sextet values up to the first
`=` (which terminates the data; characters after it are ignored), discarding
characters outside the alphabet; also reports whether a `=` was seen. -/
def b64Scan : List Char → List Nat × Bool
  | [] => ([], false)
  | c :: cs =>
    if c = '=' then ([], true)
    else
      match b64Index c with
      | some i => ((b64Scan cs).1.cons i, (b64Scan cs).2)
      | none => b64Scan cs

/-- Reassembling bytes from sextet values: full groups of four give three
bytes; a trailing group of two or three sextets gives one or two bytes
(low filler bits discarded, as `binascii` does); a trailing single sextet
cannot occur in a well-formed stream. -/
def b64DecodeGroups : List Nat → Option (List Nat)
  | [] => some []
  | [_] => none
  | [i0, i1] => some [i0 * 4 + i1 / 16]
  | [i0, i1, i2] => some [i0 * 4 + i1 / 16, i1 % 16 * 16 + i2 / 4]
  | i0 :: i1 :: i2 :: i3 :: rest =>
    (b64DecodeGroups rest).map fun bs =>
      (i0 * 4 + i1 / 16) :: (i1 % 16 * 16 + i2 / 4) :: (i2 % 4 * 64 + i3) :: bs

/-- The validation-and-reassembly phase of `b64decode`: reject a data length
that is 1 more than a multiple of 4, or a non-multiple of 4 without padding
(Python's binascii errors), then reassemble bytes. -/
def b64Finish (d : List Nat) (pad : Bool) : Option (List Nat) :=
  if d.length % 4 = 1 then none
  else if d.length % 4 ≠ 0 ∧ pad = false then none
  else b64DecodeGroups d

/-- `base64.urlsafe_b64decode`: scan, validate, reassemble. -/
def b64Decode (cs : List Char) : Option (List Nat) :=
  b64Finish (b64Scan cs).1 (b64Scan cs).2

/-- Whether `pat` is an initial segment of `l`. -/
def leadsWith : List Char → List Char → Bool
  | [], _ => true
  | _ :: _, [] => false
  | p :: ps, c :: cs => p == c && leadsWith ps cs

/-- Fuel-indexed worker for `replaceL`; one unit of fuel is spent per step,
so any fuel at least the list length gives the untruncated result. -/
def replaceFuel (pat rep : List Char) : Nat → List Char → List Char
  | _, [] => []
  | 0, l => l
  | fuel + 1, c :: cs =>
    if pat ≠ [] ∧ leadsWith pat (c :: cs) then
      rep ++ replaceFuel pat rep fuel (cs.drop (pat.length - 1))
    else c :: replaceFuel pat rep fuel cs

/-- Python `str.replace(pat, rep)`: replace the occurrences of `pat`
leftmost-first and non-overlapping. -/
def replaceL (pat rep l : List Char) : List Char :=
  replaceFuel pat rep l.length l

/-- Whether `pat` occurs as a contiguous substring of `l` (for nonempty
`pat`). -/
def hasSub (pat : List Char) : List Char → Bool
  | [] => false
  | c :: cs => leadsWith pat (c :: cs) || hasSub pat cs

/-- The substitution token standing for `-`. -/
def aTok : List Char := ['a', '_', 'a']

/-- The substitution token standing for `=`. -/
def bTok : List Char := ['b', '_', 'b']

/-- `string_to_base64` (src/biochatter/vectorstore_host.py lines 26-28):
urlsafe-base64 of the UTF-8 bytes, then `.replace('-', 'a_a')`, then
`.replace('=', 'b_b')`. -/
def string_to_base64 (txt : String) : String :=
  String.mk (replaceL ['='] bTok (replaceL ['-'] aTok (b64EncodeChars (utf8Encode txt))))

/-- `base64_to_string` (src/biochatter/vectorstore_host.py lines 30-32):
`.replace('a_a', '-')`, then `.replace('b_b', '=')`, then
`urlsafe_b64decode` and `.decode("utf-8")`; decoding errors are `none`. -/
def base64_to_string (b64_txt : String) : Option String :=
  (b64Decode (replaceL bTok ['='] (replaceL aTok ['-'] b64_txt.data))).bind
    fun bytes => (utf8DecodeL bytes).map String.mk

/-- Per-character effect of the two encode-side substitutions. -/
def encTok (c : Char) : List Char :=
  if c = '-' then aTok else if c = '=' then bTok else [c]

/-- Per-character effect of the first substitution (`-` to `a_a`). -/
def dashTok (c : Char) : List Char := if c = '-' then aTok else [c]

/-- Per-character effect of the second substitution (`=` to `b_b`). -/
def eqTok (c : Char) : List Char := if c = '=' then bTok else [c]

/-! ### Helper lemmas -/

theorem joinNL_append_single (l : List String) (x : String) (h : l ≠ []) :
    joinNL (l ++ [x]) = joinNL l ++ "\n" ++ x := by
  induction l with
  | nil => exact absurd rfl h
  | cons a l ih =>
    cases l with
    | nil => rfl
    | cons b l' =>
      show a ++ "\n" ++ joinNL ((b :: l') ++ [x]) = (a ++ "\n" ++ joinNL (b :: l')) ++ "\n" ++ x
      rw [ih (by simp)]
      simp [String.append_assoc]

theorem map_content_map_system (sys : List String) :
    (sys.map LogEntry.system).map LogEntry.content = sys := by
  induction sys with
  | nil => rfl
  | cons a l ih => simpa [LogEntry.content] using ih

/-- Joined contents of a trailing System-run plus Human message. -/
theorem joinNL_sys_human (sys : List String) (h : String) (hne : sys ≠ []) :
    joinNL (((sys.map LogEntry.system) ++ [LogEntry.human h]).map LogEntry.content)
      = joinNL sys ++ "\n" ++ h := by
  rw [List.map_append, map_content_map_system]
  show joinNL (sys ++ [h]) = joinNL sys ++ "\n" ++ h
  exact joinNL_append_single sys h hne

/-! ## Claims C1, C2 (history flattener) -/

/-- C1 (counterexample): the claim states that every run of System messages
immediately followed by a Human message folds into its own merged user turn,
and in particular a log ending in System then Human has that merged pair as
its final flattened turn.  For the log [System "a", Human "b", System "c",
Human "d"] (no AI message) the flattener joins the whole log into the single
turn ("user", "a\nb\nc\nd"), so the final turn is not the merged trailing
pair ("user", "c\nd"). -/
theorem C1_trailing_fold_counterexample :
    createHistory [LogEntry.system "a", LogEntry.human "b",
                   LogEntry.system "c", LogEntry.human "d"]
        = [("user", "a\nb\nc\nd")]
      ∧ (createHistory [LogEntry.system "a", LogEntry.human "b",
                        LogEntry.system "c", LogEntry.human "d"]).getLast?
        ≠ some ("user", "c\nd") := by
  constructor
  · rfl
  · decide

/-- C1 (amended): whenever the portion of the message log strictly after the
last AI message (the whole log when there is no AI message) is exactly a run
of one or more System messages followed by a single Human message, the final
flattened turn is a single "user" turn whose content is the System contents
joined by line breaks, followed by a line break and the Human content; in
particular this covers a log that is exactly System message(s) then a Human
message. -/
theorem C1_trailing_fold (msgs : List LogEntry) (sys : List String) (h : String)
    (hne : sys ≠ [])
    (htail : tailAfterLastAI msgs = (sys.map LogEntry.system) ++ [LogEntry.human h]) :
    (createHistory msgs).getLast? = some ("user", joinNL sys ++ "\n" ++ h) := by
  have hlast : (createHistory msgs).getLast?
      = some ("user", joinNL ((tailAfterLastAI msgs).map LogEntry.content)) := by
    unfold createHistory tailAfterLastAI
    cases lastAIIndex msgs <;> rfl
  rw [hlast, htail, joinNL_sys_human sys h hne]

/-- C1 (witness): for the log [System "System message", Human "Human message"]
the final flattened turn is the merged user turn
("user", "System message\nHuman message"). -/
theorem C1_trailing_fold_witness :
    (["System message"] : List String) ≠ []
      ∧ (createHistory [LogEntry.system "System message",
                        LogEntry.human "Human message"]).getLast?
          = some ("user", "System message\nHuman message") := by
  refine ⟨by decide, ?_⟩
  have := C1_trailing_fold
    [LogEntry.system "System message", LogEntry.human "Human message"]
    ["System message"] "Human message" (by decide) (by rfl)
  simpa using this

/-- C2: the log [Human, AI, Human, AI, Human, AI, System, Human] of the test
`test_multiple_cycles_of_ai_and_human` flattens to exactly three turns, the
final one being the merged trailing user turn combining the System and Human
contents with a line break. -/
theorem C2_three_turn_compression :
    createHistory
        [LogEntry.human "Human message history", LogEntry.ai "AI message",
         LogEntry.human "Human message", LogEntry.ai "AI message",
         LogEntry.human "Human message", LogEntry.ai "AI message",
         LogEntry.system "System message", LogEntry.human "Human message"]
      = [("user",
          "Human message history\nAI message\nHuman message\nAI message\nHuman message"),
         ("assistant", "AI message"),
         ("user", "System message\nHuman message")]
      ∧ (createHistory
          [LogEntry.human "Human message history", LogEntry.ai "AI message",
           LogEntry.human "Human message", LogEntry.ai "AI message",
           LogEntry.human "Human message", LogEntry.ai "AI message",
           LogEntry.system "System message", LogEntry.human "Human message"]).length
        = 3 := by
  constructor
  · rfl
  · rfl

/-! ## Claims C3, C8 (message-log serialization) -/

/-- C3: for every log built only from the three recognized variants,
`serialize` succeeds and returns exactly one single-key mapping per message,
in log order, with System mapped to key "system", Human to "user" and AI to
"ai" (that is, the `roleTurn` image of the log); the output length equals the
log length, and the empty log serializes to the empty sequence. -/
theorem C3_serialize_ordered (log : List LogEntry)
    (h : ∀ m ∈ log, m ≠ LogEntry.unrecognized) :
    serialize log = .ok (log.map roleTurn)
      ∧ (log.map roleTurn).length = log.length
      ∧ serialize ([] : List LogEntry) = .ok [] := by
  refine ⟨?_, by simp, rfl⟩
  induction log with
  | nil => rfl
  | cons m ms ih =>
    have hm : m ≠ LogEntry.unrecognized := h m (by simp)
    have hrest := ih (fun x hx => h x (by simp [hx]))
    cases m with
    | system c => simp [serialize, serializeEntry, roleTurn, hrest]
    | human c => simp [serialize, serializeEntry, roleTurn, hrest]
    | ai c => simp [serialize, serializeEntry, roleTurn, hrest]
    | unrecognized => exact absurd rfl hm

/-- C3 (witness): the three-message log of `test_multiple_messages`
serializes to its three single-key mappings in order. -/
theorem C3_serialize_ordered_witness :
    (∀ m ∈ [LogEntry.system "Hello, world!", LogEntry.human "How are you?",
            LogEntry.ai "Fine, thanks!"], m ≠ LogEntry.unrecognized)
      ∧ serialize [LogEntry.system "Hello, world!", LogEntry.human "How are you?",
                   LogEntry.ai "Fine, thanks!"]
          = .ok [("system", "Hello, world!"), ("user", "How are you?"),
                 ("ai", "Fine, thanks!")] := by
  refine ⟨by decide, ?_⟩
  have := C3_serialize_ordered
    [LogEntry.system "Hello, world!", LogEntry.human "How are you?",
     LogEntry.ai "Fine, thanks!"] (by decide)
  simpa [roleTurn] using this.1

/-- C8: serializing any log containing at least one value that is not one of
the three recognized message variants fails with the
unrecognized-message-type error; no role is silently guessed. -/
theorem C8_serialize_unrecognized_fails (log : List LogEntry)
    (h : LogEntry.unrecognized ∈ log) :
    serialize log = .error "Unrecognized message type" := by
  induction log with
  | nil => simp at h
  | cons m ms ih =>
    cases m with
    | unrecognized => rfl
    | system c =>
      have hms : LogEntry.unrecognized ∈ ms := by simpa using h
      simp [serialize, serializeEntry, ih hms]
    | human c =>
      have hms : LogEntry.unrecognized ∈ ms := by simpa using h
      simp [serialize, serializeEntry, ih hms]
    | ai c =>
      have hms : LogEntry.unrecognized ∈ ms := by simpa using h
      simp [serialize, serializeEntry, ih hms]

/-- C8 (witness): the log of `test_unknown_message_type` (one recognized
message followed by an unrecognized value) fails to serialize. -/
theorem C8_serialize_unrecognized_fails_witness :
    LogEntry.unrecognized ∈ [LogEntry.system "Hello, world!", LogEntry.unrecognized]
      ∧ serialize [LogEntry.system "Hello, world!", LogEntry.unrecognized]
          = .error "Unrecognized message type" := by
  exact ⟨by decide,
    C8_serialize_unrecognized_fails
      [LogEntry.system "Hello, world!", LogEntry.unrecognized] (by decide)⟩

/-- C4: for every `_update_usage_stats` call with the community-sentinel
user, the aggregate increment contains exactly the top-level numeric entries
of `token_usage`, each keyed `field:model` (strings and nested mappings
excluded), and the callback receives `(user, model, token_usage)` with the
original mapping unchanged, nested sub-mappings included; both effects occur
on the same call. -/
theorem C4_usage_stats (user model date : String)
    (tu : List (String × UsageValue)) (huser : user = "community") :
    (updateUsageStats user model date tu).communityIncrement
        = some ("usage:" ++ date ++ ":" ++ user,
            tu.filterMap fun kv =>
              match kv.2 with
              | .num n => some (kv.1 ++ ":" ++ model, n)
              | _ => none)
      ∧ (updateUsageStats user model date tu).callbackArgs = (user, model, tu) := by
  have hsan : ∀ l : List (String × UsageValue),
      sanitizeUsage model l
        = l.filterMap fun kv =>
            match kv.2 with
            | .num n => some (kv.1 ++ ":" ++ model, n)
            | _ => none := by
    intro l
    induction l with
    | nil => rfl
    | cons kv rest ih =>
      obtain ⟨k, v⟩ := kv
      cases v <;> simp [sanitizeUsage, List.filterMap, ih]
  subst huser
  exact ⟨by simp [updateUsageStats, hsan], rfl⟩

/-- C4 (witness): the call of `test_gpt_update_usage_stats` — community user,
three numeric fields, one string field, one nested mapping and one further
string field — increments exactly the three `field:model` sub-keys and
forwards the untouched mapping. -/
theorem C4_usage_stats_witness :
    ("community" : String) = "community"
      ∧ (updateUsageStats "community" "gpt-3.5-turbo" "[date]"
          [("prompt_tokens", .num 50), ("completion_tokens", .num 30),
           ("total_tokens", .num 80), ("non_numeric_field", .str "should be ignored"),
           ("nested_dict", .nested [("sub_field", 100), ("another_field", 200)]),
           ("another_field", .str "also ignored")]).communityIncrement
        = some ("usage:[date]:community",
            [("prompt_tokens:gpt-3.5-turbo", 50),
             ("completion_tokens:gpt-3.5-turbo", 30),
             ("total_tokens:gpt-3.5-turbo", 80)])
      ∧ (updateUsageStats "community" "gpt-3.5-turbo" "[date]"
          [("prompt_tokens", .num 50), ("completion_tokens", .num 30),
           ("total_tokens", .num 80), ("non_numeric_field", .str "should be ignored"),
           ("nested_dict", .nested [("sub_field", 100), ("another_field", 200)]),
           ("another_field", .str "also ignored")]).callbackArgs
        = ("community", "gpt-3.5-turbo",
           [("prompt_tokens", .num 50), ("completion_tokens", .num 30),
            ("total_tokens", .num 80), ("non_numeric_field", .str "should be ignored"),
            ("nested_dict", .nested [("sub_field", 100), ("another_field", 200)]),
            ("another_field", .str "also ignored")]) := by
  have h := C4_usage_stats "community" "gpt-3.5-turbo" "[date]"
    [("prompt_tokens", .num 50), ("completion_tokens", .num 30),
     ("total_tokens", .num 80), ("non_numeric_field", .str "should be ignored"),
     ("nested_dict", .nested [("sub_field", 100), ("another_field", 200)]),
     ("another_field", .str "also ignored")] rfl
  refine ⟨rfl, ?_, h.2⟩
  rw [h.1]
  rfl

/-- C5: the two client handles are never partially bound — on a fresh
conversation and after any failed `set_api_key` call, accessing either
`chat` or `ca_chat` fails with the explicit not-initialized error naming
`set_api_key()`; after a successful call both are accessible and bound to the
same client handle (the same authenticated identity). -/
theorem C5_handles_never_partial (model : String) (c : Conversation)
    (key user e : String) (h : ClientHandle) :
    chatAccess (mkConversation model)
        = .error "Chat attribute not initialized. Did you call set_api_key()?"
      ∧ caChatAccess (mkConversation model)
        = .error "Correcting agent chat attribute not initialized. Did you call set_api_key()?"
      ∧ (set_api_key c (.error e) key user).1 = false
      ∧ chatAccess (set_api_key c (.error e) key user).2
        = .error "Chat attribute not initialized. Did you call set_api_key()?"
      ∧ caChatAccess (set_api_key c (.error e) key user).2
        = .error "Correcting agent chat attribute not initialized. Did you call set_api_key()?"
      ∧ (set_api_key c (.ok h) key user).1 = true
      ∧ chatAccess (set_api_key c (.ok h) key user).2 = .ok h
      ∧ caChatAccess (set_api_key c (.ok h) key user).2 = .ok h
      ∧ (set_api_key c (.ok h) key user).2.api_key = some key
      ∧ (set_api_key c (.ok h) key user).2.user = some user := by
  refine ⟨rfl, rfl, rfl, ?_, ?_, rfl, ?_, ?_, rfl, rfl⟩ <;>
    simp [set_api_key, chatAccess, caChatAccess]

/-- C6: `parse_llm_response` is a total function (it never raises): it
returns the value at `generations[0][0].message.response_metadata.token_usage`
for every well-shaped response, and returns the absent result for `None`
input, for a non-mapping input, for a mapping missing the `generations` key,
and for a response with an incomplete nested structure. -/
theorem C6_parse_llm_response (tu : PyVal) (n : Int) :
    parse_llm_response (validResponse tu) = some tu
      ∧ parse_llm_response PyVal.pyNone = none
      ∧ parse_llm_response (.int n) = none
      ∧ parse_llm_response (.dict [("not_generations", .list [])]) = none
      ∧ parse_llm_response
          (.dict [("generations", .list [.list [.dict [("no_message", .dict [])]]])])
        = none := by
  refine ⟨?_, rfl, rfl, rfl, rfl⟩
  rfl

/-- C7: every `_correct_response` call sends exactly a three-turn envelope —
System (correcting-agent prompt), Human carrying the primary answer verbatim,
closing System — records its usage event under the correction persona's model
identity, and returns the correction response text unmodified; when that text
is exactly "OK" the correction result is the literal "OK" while the envelope
still carries the unaltered primary answer. -/
theorem C7_correct_response (caPrompt closing msg caModel text : String)
    (usage : List (String × UsageValue)) :
    (correct_response caPrompt closing msg caModel text usage).envelope
        = [LogEntry.system caPrompt, LogEntry.human msg, LogEntry.system closing]
      ∧ (correct_response caPrompt closing msg caModel text usage).envelope.length = 3
      ∧ (correct_response caPrompt closing msg caModel text usage).envelope.get? 1
        = some (LogEntry.human msg)
      ∧ (correct_response caPrompt closing msg caModel text usage).usageModel = caModel
      ∧ (correct_response caPrompt closing msg caModel text usage).usage = usage
      ∧ (correct_response caPrompt closing msg caModel text usage).correction = text
      ∧ (correct_response caPrompt closing msg caModel "OK" usage).correction = "OK"
      ∧ (correct_response caPrompt closing msg caModel "OK" usage).envelope.get? 1
        = some (LogEntry.human msg) := by
  exact ⟨rfl, rfl, rfl, rfl, rfl, rfl, rfl, rfl⟩

/-- C9: `get_model_max_tokens` returns the catalog entry's `max_tokens` value
when the model is known and the field present, and fails with the one
not-found error in both failure cases — unknown model, and known model whose
entry lacks the field — so the two failures are indistinguishable to the
caller. -/
theorem C9_max_tokens_lookup (catalog : List (String × ModelInfo)) (name : String) :
    (catalogLookup catalog name = none →
      get_model_max_tokens catalog name = .error .notFound)
      ∧ (∀ info, catalogLookup catalog name = some info → info.max_tokens = none →
          get_model_max_tokens catalog name = .error .notFound)
      ∧ (∀ info t, catalogLookup catalog name = some info → info.max_tokens = some t →
          get_model_max_tokens catalog name = .ok t) := by
  refine ⟨?_, ?_, ?_⟩
  · intro hnone
    simp [get_model_max_tokens, get_model_info, hnone]
  · intro info hsome hmt
    simp [get_model_max_tokens, get_model_info, hsome, hmt]
  · intro info t hsome hmt
    simp [get_model_max_tokens, get_model_info, hsome, hmt]

/-- C9 (witness): on the test catalog, `gpt-4` resolves to 8192;
`nonexistent-model` fails with the not-found error; and a known `gpt-4`
entry lacking `max_tokens` fails with the same not-found error. -/
theorem C9_max_tokens_lookup_witness :
    get_model_max_tokens mockCatalog "gpt-4" = .ok 8192
      ∧ get_model_max_tokens mockCatalog "nonexistent-model" = .error .notFound
      ∧ get_model_max_tokens mockCatalogNoMax "gpt-4" = .error .notFound := by
  refine ⟨?_, ?_, ?_⟩
  · exact (C9_max_tokens_lookup mockCatalog "gpt-4").2.2 ⟨some 8192⟩ 8192 (by rfl) rfl
  · exact (C9_max_tokens_lookup mockCatalog "nonexistent-model").1 (by rfl)
  · exact (C9_max_tokens_lookup mockCatalogNoMax "gpt-4").2.1 ⟨none⟩ (by rfl) rfl

/-! ### Replacement lemmas -/

/-- The fuel of `replaceFuel` is irrelevant once it covers the list
length. -/
theorem replaceFuel_congr (pat rep : List Char) :
    ∀ (f1 f2 : Nat) (l : List Char), l.length ≤ f1 → l.length ≤ f2 →
      replaceFuel pat rep f1 l = replaceFuel pat rep f2 l := by
  intro f1
  induction f1 with
  | zero =>
    intro f2 l h1 _
    have hl : l = [] := List.eq_nil_of_length_eq_zero (Nat.le_zero.mp h1)
    subst hl
    cases f2 <;> rfl
  | succ f ih =>
    intro f2 l h1 h2
    cases l with
    | nil => cases f2 <;> rfl
    | cons c cs =>
      cases f2 with
      | zero => simp at h2
      | succ f2' =>
        simp only [replaceFuel]
        by_cases hm : pat ≠ [] ∧ leadsWith pat (c :: cs) = true
        · rw [if_pos hm, if_pos hm]
          have hlen : (cs.drop (pat.length - 1)).length ≤ cs.length := by
            simp [List.length_drop]
          simp only [List.length_cons] at h1 h2
          rw [ih f2' (cs.drop (pat.length - 1)) (by omega) (by omega)]
        · rw [if_neg hm, if_neg hm]
          simp only [List.length_cons] at h1 h2
          rw [ih f2' cs (by omega) (by omega)]

/-- Unfolding `replaceL` at a cons cell. -/
theorem replaceL_cons (pat rep : List Char) (c : Char) (cs : List Char) :
    replaceL pat rep (c :: cs)
      = if pat ≠ [] ∧ leadsWith pat (c :: cs) then
          rep ++ replaceL pat rep (cs.drop (pat.length - 1))
        else c :: replaceL pat rep cs := by
  show replaceFuel pat rep (cs.length + 1) (c :: cs) = _
  simp only [replaceFuel]
  by_cases hm : pat ≠ [] ∧ leadsWith pat (c :: cs) = true
  · rw [if_pos hm, if_pos hm]
    have : replaceFuel pat rep cs.length (cs.drop (pat.length - 1))
        = replaceL pat rep (cs.drop (pat.length - 1)) :=
      replaceFuel_congr pat rep cs.length (cs.drop (pat.length - 1)).length
        (cs.drop (pat.length - 1)) (by simp [List.length_drop]) le_rfl
    rw [this]
  · rw [if_neg hm, if_neg hm]
    rfl

/-- Replacing a single-character pattern acts independently on each
character. -/
theorem replaceL_single (p : Char) (rep : List Char) (l : List Char) :
    replaceL [p] rep l = l.flatMap fun c => if c = p then rep else [c] := by
  induction l with
  | nil => rfl
  | cons c cs ih =>
    rw [replaceL_cons]
    by_cases hc : c = p
    · rw [if_pos ⟨by simp, by simp [leadsWith, hc]⟩]
      have hdrop : cs.drop (([p] : List Char).length - 1) = cs := rfl
      rw [hdrop, ih]
      simp [hc]
    · have hpc : ¬p = c := fun h => hc h.symm
      rw [if_neg (by simp [leadsWith, hpc])]
      rw [ih]
      simp [hc]

/-- Composition of the two per-character substitutions. -/
theorem tok_comp (c : Char) : (dashTok c).flatMap eqTok = encTok c := by
  by_cases hd : c = '-'
  · subst hd
    decide
  · by_cases he : c = '='
    · subst he
      decide
    · simp [dashTok, eqTok, encTok, hd, he]

/-- `flatMap` respects pointwise equal functions. -/
theorem flatMap_fun_congr {α β : Type} (f g : α → List β) (h : ∀ c, f c = g c)
    (l : List α) : l.flatMap f = l.flatMap g := by
  induction l with
  | nil => rfl
  | cons c cs ih => simp only [List.flatMap_cons, h, ih]

/-- The two encode-side substitutions together replace each character of the
pristine base64 text by its token. -/
theorem enc_flatMap (B : List Char) :
    replaceL ['='] bTok (replaceL ['-'] aTok B) = B.flatMap encTok := by
  have e1 : replaceL ['-'] aTok B = B.flatMap dashTok := replaceL_single '-' aTok B
  have e2 : replaceL ['='] bTok (B.flatMap dashTok)
      = (B.flatMap dashTok).flatMap eqTok := replaceL_single '=' bTok _
  rw [e1, e2, List.flatMap_assoc]
  exact flatMap_fun_congr _ _ tok_comp B

/-- If the token image of `rest` begins with `_`, then `rest` itself begins
with `_` (every token begins with `a`, `b` or its own character). -/
theorem encTok_head_underscore (rest : List Char) (t : List Char)
    (h : rest.flatMap encTok = '_' :: t) :
    ∃ rest2, rest = '_' :: rest2 ∧ t = rest2.flatMap encTok := by
  cases rest with
  | nil => simp at h
  | cons d rest2 =>
    rw [List.flatMap_cons] at h
    by_cases hd : d = '-'
    · rw [hd] at h
      simp [encTok, aTok] at h
    · by_cases he : d = '='
      · rw [he] at h
        simp [encTok, bTok] at h
      · rw [show encTok d = [d] by simp [encTok, hd, he]] at h
        simp only [List.singleton_append] at h
        injection h with h1 h2
        exact ⟨rest2, by rw [h1], h2.symm⟩

/-- If the token image of `rest` begins with `a`, then `rest` begins with
`a` or with `-`. -/
theorem encTok_head_a (rest : List Char) (t : List Char)
    (h : rest.flatMap encTok = 'a' :: t) :
    (∃ rest2, rest = 'a' :: rest2) ∨ (∃ rest2, rest = '-' :: rest2) := by
  cases rest with
  | nil => simp at h
  | cons d rest2 =>
    rw [List.flatMap_cons] at h
    by_cases hd : d = '-'
    · exact Or.inr ⟨rest2, by rw [hd]⟩
    · by_cases he : d = '='
      · rw [he] at h
        simp [encTok, bTok] at h
      · rw [show encTok d = [d] by simp [encTok, hd, he]] at h
        simp only [List.singleton_append] at h
        injection h with h1 _
        exact Or.inl ⟨rest2, by rw [h1]⟩

/-- Decoding substitution 1: replacing `a_a` by `-` on the token image
recovers the `-` characters, leaving the `=` tokens in place — provided the
pristine base64 text contains neither `a_a` nor `a_-`. -/
theorem replace_aTok_inv (B : List Char) (h1 : hasSub aTok B = false)
    (h2 : hasSub ['a', '_', '-'] B = false) :
    replaceL aTok ['-'] (B.flatMap encTok) = B.flatMap eqTok := by
  induction B with
  | nil => rfl
  | cons c cs ih =>
    have h1' : hasSub aTok cs = false := by
      have hh := h1
      simp [hasSub] at hh
      exact hh.2
    have h2' : hasSub ['a', '_', '-'] cs = false := by
      have hh := h2
      simp [hasSub] at hh
      exact hh.2
    rw [List.flatMap_cons, List.flatMap_cons]
    by_cases hd : c = '-'
    · subst hd
      show replaceL aTok ['-'] ('a' :: '_' :: 'a' :: cs.flatMap encTok)
          = eqTok '-' ++ cs.flatMap eqTok
      rw [replaceL_cons, if_pos ⟨by simp [aTok], by simp [aTok, leadsWith]⟩]
      have hdrop : (('_' :: 'a' :: cs.flatMap encTok) : List Char).drop (aTok.length - 1)
          = cs.flatMap encTok := rfl
      rw [hdrop, ih h1' h2']
      rfl
    · by_cases he : c = '='
      · subst he
        show replaceL aTok ['-'] ('b' :: '_' :: 'b' :: cs.flatMap encTok)
            = eqTok '=' ++ cs.flatMap eqTok
        rw [replaceL_cons, if_neg (by simp [aTok, leadsWith])]
        rw [replaceL_cons, if_neg (by simp [aTok, leadsWith])]
        rw [replaceL_cons, if_neg (by simp [aTok, leadsWith])]
        rw [ih h1' h2']
        rfl
      · rw [show encTok c = [c] by simp [encTok, hd, he],
           show eqTok c = [c] by simp [eqTok, he]]
        simp only [List.singleton_append]
        by_cases ha : c = 'a'
        · subst ha
          have hnolead : leadsWith aTok ('a' :: cs.flatMap encTok) = false := by
            cases htt : cs.flatMap encTok with
            | nil => simp [aTok, leadsWith]
            | cons t1 tt =>
              by_cases h1t : t1 = '_'
              · subst h1t
                obtain ⟨rest2, hcs, htt2⟩ := encTok_head_underscore cs tt htt
                cases htt3 : rest2.flatMap encTok with
                | nil => simp [aTok, leadsWith, htt2, htt3]
                | cons u1 uu =>
                  by_cases hu : u1 = 'a'
                  · subst hu
                    rcases encTok_head_a rest2 uu htt3 with ⟨r3, hr3⟩ | ⟨r3, hr3⟩
                    · exfalso
                      rw [hcs, hr3] at h1
                      simp [hasSub, aTok, leadsWith] at h1
                    · exfalso
                      rw [hcs, hr3] at h2
                      simp [hasSub, leadsWith] at h2
                  · have hu2 : ('a' == u1) = false := by
                      simp only [beq_eq_false_iff_ne]
                      exact fun hh => hu hh.symm
                    simp [aTok, leadsWith, htt2, htt3, hu2]
              · have h1t2 : ('_' == t1) = false := by
                  simp only [beq_eq_false_iff_ne]
                  exact fun hh => h1t hh.symm
                simp [aTok, leadsWith, htt, h1t2]
          rw [replaceL_cons, if_neg (by simp [hnolead])]
          rw [ih h1' h2']
        · have ha2 : ('a' == c) = false := by
            simp only [beq_eq_false_iff_ne]
            exact fun hh => ha hh.symm
          rw [replaceL_cons, if_neg (by simp [aTok, leadsWith, ha2])]
          rw [ih h1' h2']

/-- If the image of `rest` under the remaining substitution begins with `_`,
then `rest` begins with `_`. -/
theorem eqTok_head_underscore (rest : List Char) (t : List Char)
    (h : rest.flatMap eqTok = '_' :: t) :
    ∃ rest2, rest = '_' :: rest2 ∧ t = rest2.flatMap eqTok := by
  cases rest with
  | nil => simp at h
  | cons d rest2 =>
    rw [List.flatMap_cons] at h
    by_cases he : d = '='
    · rw [he] at h
      simp [eqTok, bTok] at h
    · rw [show eqTok d = [d] by simp [eqTok, he]] at h
      simp only [List.singleton_append] at h
      injection h with h1 h2
      exact ⟨rest2, by rw [h1], h2.symm⟩

/-- If the image of `rest` under the remaining substitution begins with `b`,
then `rest` begins with `b` or with `=`. -/
theorem eqTok_head_b (rest : List Char) (t : List Char)
    (h : rest.flatMap eqTok = 'b' :: t) :
    (∃ rest2, rest = 'b' :: rest2) ∨ (∃ rest2, rest = '=' :: rest2) := by
  cases rest with
  | nil => simp at h
  | cons d rest2 =>
    rw [List.flatMap_cons] at h
    by_cases he : d = '='
    · exact Or.inr ⟨rest2, by rw [he]⟩
    · rw [show eqTok d = [d] by simp [eqTok, he]] at h
      simp only [List.singleton_append] at h
      injection h with h1 _
      exact Or.inl ⟨rest2, by rw [h1]⟩

/-- Decoding substitution 2: replacing `b_b` by `=` recovers the original
base64 text — provided it contains neither `b_b` nor `b_=`. -/
theorem replace_bTok_inv (B : List Char) (h1 : hasSub bTok B = false)
    (h2 : hasSub ['b', '_', '='] B = false) :
    replaceL bTok ['='] (B.flatMap eqTok) = B := by
  induction B with
  | nil => rfl
  | cons c cs ih =>
    have h1' : hasSub bTok cs = false := by
      have hh := h1
      simp [hasSub] at hh
      exact hh.2
    have h2' : hasSub ['b', '_', '='] cs = false := by
      have hh := h2
      simp [hasSub] at hh
      exact hh.2
    rw [List.flatMap_cons]
    by_cases he : c = '='
    · subst he
      show replaceL bTok ['='] ('b' :: '_' :: 'b' :: cs.flatMap eqTok) = '=' :: cs
      rw [replaceL_cons, if_pos ⟨by simp [bTok], by simp [bTok, leadsWith]⟩]
      have hdrop : (('_' :: 'b' :: cs.flatMap eqTok) : List Char).drop (bTok.length - 1)
          = cs.flatMap eqTok := rfl
      rw [hdrop, ih h1' h2']
      rfl
    · rw [show eqTok c = [c] by simp [eqTok, he]]
      simp only [List.singleton_append]
      by_cases hb : c = 'b'
      · subst hb
        have hnolead : leadsWith bTok ('b' :: cs.flatMap eqTok) = false := by
          cases htt : cs.flatMap eqTok with
          | nil => simp [bTok, leadsWith]
          | cons t1 tt =>
            by_cases h1t : t1 = '_'
            · subst h1t
              obtain ⟨rest2, hcs, htt2⟩ := eqTok_head_underscore cs tt htt
              cases htt3 : rest2.flatMap eqTok with
              | nil => simp [bTok, leadsWith, htt2, htt3]
              | cons u1 uu =>
                by_cases hu : u1 = 'b'
                · subst hu
                  rcases eqTok_head_b rest2 uu htt3 with ⟨r3, hr3⟩ | ⟨r3, hr3⟩
                  · exfalso
                    rw [hcs, hr3] at h1
                    simp [hasSub, bTok, leadsWith] at h1
                  · exfalso
                    rw [hcs, hr3] at h2
                    simp [hasSub, leadsWith] at h2
                · have hu2 : ('b' == u1) = false := by
                    simp only [beq_eq_false_iff_ne]
                    exact fun hh => hu hh.symm
                  simp [bTok, leadsWith, htt2, htt3, hu2]
            · have h1t2 : ('_' == t1) = false := by
                simp only [beq_eq_false_iff_ne]
                exact fun hh => h1t hh.symm
              simp [bTok, leadsWith, htt, h1t2]
        rw [replaceL_cons, if_neg (by simp [hnolead])]
        rw [ih h1' h2']
      · have hb2 : ('b' == c) = false := by
          simp only [beq_eq_false_iff_ne]
          exact fun hh => hb hh.symm
        rw [replaceL_cons, if_neg (by simp [bTok, leadsWith, hb2])]
        rw [ih h1' h2']

/-! ### Base64 round-trip -/

/-- Every sextet value survives the alphabet round trip, and no alphabet
character is the padding character. -/
theorem b64Chr_spec : ∀ i, i < 64 → b64Index (b64Chr i) = some i ∧ b64Chr i ≠ '=' := by
  decide

/-- Scanning past one alphabet character. -/
theorem b64Scan_cons_alpha (c : Char) (i : Nat) (cs : List Char)
    (hc : b64Index c = some i) (hne : c ≠ '=') :
    b64Scan (c :: cs) = ((b64Scan cs).1.cons i, (b64Scan cs).2) := by
  simp [b64Scan, hne, hc]

/-- Scanning stops at the padding character. -/
theorem b64Scan_pad (cs : List Char) : b64Scan ('=' :: cs) = ([], true) := by
  simp [b64Scan]

/-- `b64Finish` peels one full group of four sextets into three bytes. -/
theorem b64Finish_quad (i0 i1 i2 i3 : Nat) (d : List Nat) (p : Bool) :
    b64Finish (i0 :: i1 :: i2 :: i3 :: d) p
      = (b64Finish d p).map fun bs =>
          (i0 * 4 + i1 / 16) :: (i1 % 16 * 16 + i2 / 4) :: (i2 % 4 * 64 + i3) :: bs := by
  unfold b64Finish
  rw [show (i0 :: i1 :: i2 :: i3 :: d).length % 4 = d.length % 4 from by
    simp only [List.length_cons]
    omega]
  split_ifs with hc1 hc2
  · rfl
  · rfl
  · simp [b64DecodeGroups]

/-- Base64 encoding then decoding is the identity on byte lists. -/
theorem b64_roundtrip (bytes : List Nat) (h : ∀ b ∈ bytes, b < 256) :
    b64Decode (b64EncodeChars bytes) = some bytes := by
  induction bytes using b64EncodeChars.induct with
  | case1 => rfl
  | case2 b1 =>
    have hb1 : b1 < 256 := h b1 (by simp)
    have h0 := b64Chr_spec (b1 / 4) (by omega)
    have h1 := b64Chr_spec (b1 % 4 * 16) (by omega)
    show b64Decode [b64Chr (b1 / 4), b64Chr (b1 % 4 * 16), '=', '='] = some [b1]
    unfold b64Decode
    rw [b64Scan_cons_alpha _ _ _ h0.1 h0.2, b64Scan_cons_alpha _ _ _ h1.1 h1.2,
      b64Scan_pad]
    show b64Finish [b1 / 4, b1 % 4 * 16] true = some [b1]
    unfold b64Finish
    rw [if_neg (by norm_num), if_neg (by simp)]
    show some [b1 / 4 * 4 + b1 % 4 * 16 / 16] = some [b1]
    congr 2
    omega
  | case3 b1 b2 =>
    have hb1 : b1 < 256 := h b1 (by simp)
    have hb2 : b2 < 256 := h b2 (by simp)
    have h0 := b64Chr_spec (b1 / 4) (by omega)
    have h1 := b64Chr_spec (b1 % 4 * 16 + b2 / 16) (by omega)
    have h2 := b64Chr_spec (b2 % 16 * 4) (by omega)
    show b64Decode [b64Chr (b1 / 4), b64Chr (b1 % 4 * 16 + b2 / 16),
        b64Chr (b2 % 16 * 4), '='] = some [b1, b2]
    unfold b64Decode
    rw [b64Scan_cons_alpha _ _ _ h0.1 h0.2, b64Scan_cons_alpha _ _ _ h1.1 h1.2,
      b64Scan_cons_alpha _ _ _ h2.1 h2.2, b64Scan_pad]
    show b64Finish [b1 / 4, b1 % 4 * 16 + b2 / 16, b2 % 16 * 4] true = some [b1, b2]
    unfold b64Finish
    rw [if_neg (by norm_num), if_neg (by simp)]
    show some [b1 / 4 * 4 + (b1 % 4 * 16 + b2 / 16) / 16,
        (b1 % 4 * 16 + b2 / 16) % 16 * 16 + b2 % 16 * 4 / 4] = some [b1, b2]
    congr 3
    · omega
    · omega
  | case4 b1 b2 b3 rest ih =>
    have hb1 : b1 < 256 := h b1 (by simp)
    have hb2 : b2 < 256 := h b2 (by simp)
    have hb3 : b3 < 256 := h b3 (by simp)
    have hrest : ∀ b ∈ rest, b < 256 := fun b hb => h b (by simp [hb])
    have h0 := b64Chr_spec (b1 / 4) (by omega)
    have h1 := b64Chr_spec (b1 % 4 * 16 + b2 / 16) (by omega)
    have h2 := b64Chr_spec (b2 % 16 * 4 + b3 / 64) (by omega)
    have h3 := b64Chr_spec (b3 % 64) (by omega)
    have ih2 := ih hrest
    unfold b64Decode at ih2 ⊢
    show b64Finish (b64Scan (b64Chr (b1 / 4) :: b64Chr (b1 % 4 * 16 + b2 / 16) ::
        b64Chr (b2 % 16 * 4 + b3 / 64) :: b64Chr (b3 % 64) ::
        b64EncodeChars rest)).1 (b64Scan (b64Chr (b1 / 4) ::
        b64Chr (b1 % 4 * 16 + b2 / 16) :: b64Chr (b2 % 16 * 4 + b3 / 64) ::
        b64Chr (b3 % 64) :: b64EncodeChars rest)).2
      = some (b1 :: b2 :: b3 :: rest)
    rw [b64Scan_cons_alpha _ _ _ h0.1 h0.2, b64Scan_cons_alpha _ _ _ h1.1 h1.2,
      b64Scan_cons_alpha _ _ _ h2.1 h2.2, b64Scan_cons_alpha _ _ _ h3.1 h3.2]
    show b64Finish (b1 / 4 :: (b1 % 4 * 16 + b2 / 16) :: (b2 % 16 * 4 + b3 / 64) ::
        b3 % 64 :: (b64Scan (b64EncodeChars rest)).1)
        (b64Scan (b64EncodeChars rest)).2
      = some (b1 :: b2 :: b3 :: rest)
    rw [b64Finish_quad, ih2]
    show some ((b1 / 4 * 4 + (b1 % 4 * 16 + b2 / 16) / 16) ::
        ((b1 % 4 * 16 + b2 / 16) % 16 * 16 + (b2 % 16 * 4 + b3 / 64) / 4) ::
        ((b2 % 16 * 4 + b3 / 64) % 4 * 64 + b3 % 64) :: rest)
      = some (b1 :: b2 :: b3 :: rest)
    congr 2
    · omega
    · congr 1
      · omega
      · congr 1
        omega

/-! ### UTF-8 round-trip -/

/-- Every character's code point is below 0x110000. -/
theorem char_toNat_lt (c : Char) : c.toNat < 1114112 := by
  have he : c.toNat = c.val.toNat := rfl
  rcases c.valid with hv | ⟨_, hv2⟩
  · rw [he]
    omega
  · rw [he]
    exact hv2

/-- The fuel of `utf8DecodeFuel` is irrelevant once it covers the byte
count. -/
theorem utf8_fuel_congr :
    ∀ (f1 f2 : Nat) (l : List Nat), l.length ≤ f1 → l.length ≤ f2 →
      utf8DecodeFuel f1 l = utf8DecodeFuel f2 l := by
  intro f1
  induction f1 with
  | zero =>
    intro f2 l h1 _
    have hl : l = [] := List.eq_nil_of_length_eq_zero (Nat.le_zero.mp h1)
    subst hl
    cases f2 <;> rfl
  | succ f ih =>
    intro f2 l h1 h2
    cases l with
    | nil => cases f2 <;> rfl
    | cons b bs =>
      cases f2 with
      | zero => simp at h2
      | succ f2' =>
        simp only [List.length_cons] at h1 h2
        have htail : bs.tail.length ≤ bs.length := by
          simp [List.length_tail]
        have htail2 : bs.tail.tail.length ≤ bs.length := by
          simp [List.length_tail]
          omega
        have htail3 : bs.tail.tail.tail.length ≤ bs.length := by
          simp [List.length_tail]
          omega
        simp only [utf8DecodeFuel]
        split_ifs <;> try rfl
        · exact congrArg _ (ih f2' bs (by omega) (by omega))
        · exact congrArg _ (ih f2' bs.tail (by omega) (by omega))
        · exact congrArg _ (ih f2' bs.tail.tail (by omega) (by omega))
        · exact congrArg _ (ih f2' bs.tail.tail.tail (by omega) (by omega))

/-- Unfolding `utf8DecodeL` at a cons cell. -/
theorem utf8DecodeL_cons (b : Nat) (bs : List Nat) :
    utf8DecodeL (b :: bs)
      = if b < 0x80 then (utf8DecodeL bs).map (Char.ofNat b :: ·)
        else if b < 0xC0 then none
        else if b < 0xE0 then
          if 0x80 ≤ bs.headD 0 ∧ bs.headD 0 < 0xC0 then
            (utf8DecodeL bs.tail).map
              (Char.ofNat ((b - 0xC0) * 64 + (bs.headD 0 - 0x80)) :: ·)
          else none
        else if b < 0xF0 then
          if (0x80 ≤ bs.headD 0 ∧ bs.headD 0 < 0xC0)
              ∧ (0x80 ≤ bs.tail.headD 0 ∧ bs.tail.headD 0 < 0xC0) then
            (utf8DecodeL bs.tail.tail).map
              (Char.ofNat ((b - 0xE0) * 4096 + (bs.headD 0 - 0x80) * 64
                + (bs.tail.headD 0 - 0x80)) :: ·)
          else none
        else if b < 0xF8 then
          if (0x80 ≤ bs.headD 0 ∧ bs.headD 0 < 0xC0)
              ∧ (0x80 ≤ bs.tail.headD 0 ∧ bs.tail.headD 0 < 0xC0)
              ∧ (0x80 ≤ bs.tail.tail.headD 0 ∧ bs.tail.tail.headD 0 < 0xC0) then
            (utf8DecodeL bs.tail.tail.tail).map
              (Char.ofNat ((b - 0xF0) * 262144 + (bs.headD 0 - 0x80) * 4096
                + (bs.tail.headD 0 - 0x80) * 64 + (bs.tail.tail.headD 0 - 0x80)) :: ·)
          else none
        else none := by
  have htail : bs.tail.length ≤ bs.length := by
    simp [List.length_tail]
  have htail2 : bs.tail.tail.length ≤ bs.length := by
    simp [List.length_tail]
    omega
  have htail3 : bs.tail.tail.tail.length ≤ bs.length := by
    simp [List.length_tail]
    omega
  show utf8DecodeFuel (bs.length + 1) (b :: bs) = _
  simp only [utf8DecodeFuel]
  split_ifs <;> try rfl
  · exact congrArg _ (utf8_fuel_congr bs.length bs.tail.length bs.tail htail le_rfl)
  · exact congrArg _ (utf8_fuel_congr bs.length bs.tail.tail.length bs.tail.tail htail2 le_rfl)
  · exact congrArg _
      (utf8_fuel_congr bs.length bs.tail.tail.tail.length bs.tail.tail.tail htail3 le_rfl)

/-- Decoding inverts encoding one character at a time. -/
theorem utf8_step (c : Char) (t : List Nat) :
    utf8DecodeL (utf8Bytes c ++ t) = (utf8DecodeL t).map (c :: ·) := by
  have hval : c.toNat < 1114112 := char_toNat_lt c
  by_cases h1 : c.toNat < 0x80
  · rw [show utf8Bytes c = [c.toNat] from by unfold utf8Bytes; rw [if_pos h1]]
    show utf8DecodeL (c.toNat :: t) = (utf8DecodeL t).map (c :: ·)
    rw [utf8DecodeL_cons]
    rw [if_pos h1, Char.ofNat_toNat]
  · by_cases h2 : c.toNat < 0x800
    · rw [show utf8Bytes c = [0xC0 + c.toNat / 64, 0x80 + c.toNat % 64] from by
        unfold utf8Bytes
        rw [if_neg h1, if_pos h2]]
      show utf8DecodeL ((0xC0 + c.toNat / 64) :: (0x80 + c.toNat % 64) :: t)
          = (utf8DecodeL t).map (c :: ·)
      rw [utf8DecodeL_cons]
      simp only [List.headD_cons, List.tail_cons]
      rw [if_neg (by omega), if_neg (by omega), if_pos (by omega), if_pos (by omega)]
      rw [show (0xC0 + c.toNat / 64 - 0xC0) * 64 + (0x80 + c.toNat % 64 - 0x80)
          = c.toNat from by omega]
      rw [Char.ofNat_toNat]
    · by_cases h3 : c.toNat < 0x10000
      · rw [show utf8Bytes c
            = [0xE0 + c.toNat / 4096, 0x80 + c.toNat / 64 % 64, 0x80 + c.toNat % 64] from by
          unfold utf8Bytes
          rw [if_neg h1, if_neg h2, if_pos h3]]
        show utf8DecodeL ((0xE0 + c.toNat / 4096) :: (0x80 + c.toNat / 64 % 64) ::
            (0x80 + c.toNat % 64) :: t) = (utf8DecodeL t).map (c :: ·)
        rw [utf8DecodeL_cons]
        simp only [List.headD_cons, List.tail_cons]
        rw [if_neg (by omega), if_neg (by omega), if_neg (by omega), if_pos (by omega),
          if_pos (by omega)]
        rw [show (0xE0 + c.toNat / 4096 - 0xE0) * 4096
            + (0x80 + c.toNat / 64 % 64 - 0x80) * 64 + (0x80 + c.toNat % 64 - 0x80)
            = c.toNat from by omega]
        rw [Char.ofNat_toNat]
      · rw [show utf8Bytes c
            = [0xF0 + c.toNat / 262144, 0x80 + c.toNat / 4096 % 64,
               0x80 + c.toNat / 64 % 64, 0x80 + c.toNat % 64] from by
          unfold utf8Bytes
          rw [if_neg h1, if_neg h2, if_neg h3]]
        show utf8DecodeL ((0xF0 + c.toNat / 262144) :: (0x80 + c.toNat / 4096 % 64) ::
            (0x80 + c.toNat / 64 % 64) :: (0x80 + c.toNat % 64) :: t)
          = (utf8DecodeL t).map (c :: ·)
        rw [utf8DecodeL_cons]
        simp only [List.headD_cons, List.tail_cons]
        rw [if_neg (by omega), if_neg (by omega), if_neg (by omega), if_neg (by omega),
          if_pos (by omega), if_pos (by omega)]
        rw [show (0xF0 + c.toNat / 262144 - 0xF0) * 262144
            + (0x80 + c.toNat / 4096 % 64 - 0x80) * 4096
            + (0x80 + c.toNat / 64 % 64 - 0x80) * 64 + (0x80 + c.toNat % 64 - 0x80)
            = c.toNat from by omega]
        rw [Char.ofNat_toNat]

/-- UTF-8 encoding then decoding is the identity on character lists. -/
theorem utf8_roundtrip (l : List Char) : utf8DecodeL (l.flatMap utf8Bytes) = some l := by
  induction l with
  | nil => rfl
  | cons c cs ih =>
    rw [List.flatMap_cons, utf8_step, ih]
    rfl

/-- UTF-8 bytes are byte values. -/
theorem utf8Bytes_lt (c : Char) : ∀ b ∈ utf8Bytes c, b < 256 := by
  intro b hb
  have hval : c.toNat < 1114112 := char_toNat_lt c
  unfold utf8Bytes at hb
  split_ifs at hb with h1 h2 h3
  · simp at hb
    omega
  · simp at hb
    rcases hb with h | h <;> omega
  · simp at hb
    rcases hb with h | h | h <;> omega
  · simp at hb
    rcases hb with h | h | h | h <;> omega

/-- All bytes of an encoded string are byte values. -/
theorem utf8Encode_lt (s : String) : ∀ b ∈ utf8Encode s, b < 256 := by
  intro b hb
  unfold utf8Encode at hb
  rw [List.mem_flatMap] at hb
  obtain ⟨c, _, hc⟩ := hb
  exact utf8Bytes_lt c b hc

/-! ## Claim C10 (alias doc-name round-trip) -/

/-- C10 (counterexample): the round-trip fails for the two-character string
with code points 0x16F and 0x680.  Its UTF-8 bytes [0xC5, 0xAF, 0xDA, 0x80]
base64-encode to `xa_agA==`, which already contains the substitution token
`a_a`; `string_to_base64` yields `xa_agAb_bb_b`, decoding substitutes the
spurious `a_a` into `-` giving the 6-character base64 text `x-gA==`, whose
decoded bytes [0xC7, 0xE8, 0x00] are not valid UTF-8, so `base64_to_string`
raises (here: `none`) instead of returning the original string. -/
theorem C10_roundtrip_counterexample :
    base64_to_string (string_to_base64 (String.mk [Char.ofNat 367, Char.ofNat 1664]))
        = none
      ∧ base64_to_string (string_to_base64 (String.mk [Char.ofNat 367, Char.ofNat 1664]))
        ≠ some (String.mk [Char.ofNat 367, Char.ofNat 1664])
      ∧ string_to_base64 (String.mk [Char.ofNat 367, Char.ofNat 1664]) = "xa_agAb_bb_b" := by
  refine ⟨by decide, ?_, by decide⟩
  intro h
  rw [show base64_to_string (string_to_base64 (String.mk [Char.ofNat 367, Char.ofNat 1664]))
      = none from by decide] at h
  exact Option.noConfusion h

/-- C10 (amended): the doc-name encoding round-trips —
`base64_to_string (string_to_base64 s) = s` — for every string `s` whose
urlsafe-base64 encoding contains none of the substrings `a_a`, `a_-`, `b_b`,
`b_=` (the substitution tokens and the overlaps that shift the leftmost-first
replacement); unrestricted, the claim fails, because a base64 text can
already contain a token, as the counterexample shows. -/
theorem C10_roundtrip (s : String)
    (h1 : hasSub aTok (b64EncodeChars (utf8Encode s)) = false)
    (h2 : hasSub ['a', '_', '-'] (b64EncodeChars (utf8Encode s)) = false)
    (h3 : hasSub bTok (b64EncodeChars (utf8Encode s)) = false)
    (h4 : hasSub ['b', '_', '='] (b64EncodeChars (utf8Encode s)) = false) :
    base64_to_string (string_to_base64 s) = some s := by
  unfold string_to_base64 base64_to_string
  rw [show (String.mk (replaceL ['='] bTok (replaceL ['-'] aTok
        (b64EncodeChars (utf8Encode s))))).data
      = replaceL ['='] bTok (replaceL ['-'] aTok (b64EncodeChars (utf8Encode s)))
    from rfl]
  rw [enc_flatMap, replace_aTok_inv _ h1 h2, replace_bTok_inv _ h3 h4]
  rw [b64_roundtrip _ (utf8Encode_lt s)]
  show (utf8DecodeL (utf8Encode s)).map String.mk = some s
  rw [show utf8Encode s = s.data.flatMap utf8Bytes from rfl, utf8_roundtrip]
  rfl

/-- C10 (witness): the round-trip holds for "Hi", whose base64 encoding
`SGk=` contains none of the four forbidden substrings. -/
theorem C10_roundtrip_witness :
    hasSub aTok (b64EncodeChars (utf8Encode "Hi")) = false
      ∧ hasSub ['a', '_', '-'] (b64EncodeChars (utf8Encode "Hi")) = false
      ∧ hasSub bTok (b64EncodeChars (utf8Encode "Hi")) = false
      ∧ hasSub ['b', '_', '='] (b64EncodeChars (utf8Encode "Hi")) = false
      ∧ base64_to_string (string_to_base64 "Hi") = some "Hi" :=
  ⟨by decide, by decide, by decide, by decide,
    C10_roundtrip "Hi" (by decide) (by decide) (by decide) (by decide)⟩

end Biochatter

